import Mathlib

/-!
Shallow embedding of the CHIP-8 emulator core (`src/cpu.rs`, `src/opcode.rs`)
of the bamode/chip-8 repository, together with theorems settling the frozen
claims about its specification.

Modelling conventions:
* Rust machine integers (`u8`, `u16`) are embedded as `Nat`; wherever the Rust
  source wraps (an `as u8` / `as u16` cast or an explicit `% 256`), the model
  applies the corresponding `% 256` / `% 65536`.  Theorems that quantify over
  CPU states carry the typing invariants of the Rust state (register cells
  below 256, index below 65536) as explicit hypotheses where they matter.
* A Rust panic (an out-of-bounds array index, or an `unreachable!()` /
  `panic!()` macro) is embedded as `Option.none`; normal completion is
  `Option.some`.
* The two host effects consumed by instructions (the random byte of `CXNN`
  and the polled-and-mapped key of `EX9E`/`EXA1`/`FX0A`) are passed to
  `Cpu.execute_instruction` as explicit oracle parameters `rnd : Nat` and
  `key : Option Nat`; `key = none` means the poll reported no mapped key.
-/

/-- Point update of a one-argument state function (an array cell write). -/
def updf (f : Nat → Nat) (i v : Nat) : Nat → Nat :=
  fun j => if j = i then v else f j

/-- Point update of the two-dimensional display array `disp[i][j] = v`. -/
def upd2 (d : Nat → Nat → Nat) (i j v : Nat) : Nat → Nat → Nat :=
  fun a b => if a = i ∧ b = j then v else d a b

/-- CPU state of `struct Cpu` in `src/cpu.rs`: 4096 bytes of memory, the
64×32 display, the 16-bit index register, the 16-slot stack array, the two
timers, the 16 registers and the program counter.  Arrays are embedded as
functions out of `Nat`; only indices below the array length are meaningful. -/
structure Cpu where
  mem : Nat → Nat
  disp : Nat → Nat → Nat
  index : Nat
  stack : Nat → Nat
  dt : Nat
  st : Nat
  reg : Nat → Nat
  pc : Nat

/-- Signal type `enum Chip8Message` returned by `execute_instruction`. -/
inductive Chip8Message where
  | None
  | ClearScreen
  | DrawScreen
  deriving DecidableEq

/-- Opcode variants of `enum Opcode` in `src/opcode.rs`. -/
inductive Opcode where
  | Clear
  | Jump
  | ReturnSub
  | GotoSub
  | SkipEqual
  | SkipNotEqual
  | SkipVXEqualVY
  | SkipVXNotEqualVY
  | SkipIfKey
  | SkipIfNotKey
  | GetKey
  | SetVX
  | AddVX
  | SetI
  | AddI
  | JumpWithOffset
  | Random
  | Draw
  | FontCharacter
  | SetVXToVY
  | BinaryOr
  | BinaryAnd
  | BinaryXor
  | AddVYToVX
  | SubVYFromVX
  | SubVXFromVY
  | ShiftRight
  | ShiftLeft
  | BinaryCodedDecimalConversion
  | SetVXToDT
  | SetDTToVX
  | SetSTToVX
  | SaveRegisterToMemory
  | LoadRegisterFromMemory
  | None
  | Error
  deriving DecidableEq

/-- Decoder `impl From<&RawOpcode> for Opcode` in `src/opcode.rs`, applied to
the five extracted fields of the `RawOpcode` bundle.  The Rust `match` arms
`_ => unreachable!()` inside families 8, 0xE and 0xF are panics and are
embedded as `Option.none`; every non-panicking arm returns `some`. -/
def Opcode.from_raw (op x y n kk : Nat) : Option Opcode :=
  if op = 0 then
    if x = 0 ∧ y = 0xE ∧ n = 0 then some .Clear
    else if x = 0 ∧ y = 0xE ∧ n = 0xE then some .ReturnSub
    else some .None
  else if op = 1 then some .Jump
  else if op = 2 then some .GotoSub
  else if op = 3 then some .SkipEqual
  else if op = 4 then some .SkipNotEqual
  else if op = 5 then some .SkipVXEqualVY
  else if op = 6 then some .SetVX
  else if op = 7 then some .AddVX
  else if op = 8 then
    if n = 0 then some .SetVXToVY
    else if n = 1 then some .BinaryOr
    else if n = 2 then some .BinaryAnd
    else if n = 3 then some .BinaryXor
    else if n = 4 then some .AddVYToVX
    else if n = 5 then some .SubVXFromVY
    else if n = 6 then some .ShiftRight
    else if n = 7 then some .SubVYFromVX
    else if n = 0xE then some .ShiftLeft
    else none
  else if op = 9 then some .SkipVXNotEqualVY
  else if op = 0xA then some .SetI
  else if op = 0xB then some .JumpWithOffset
  else if op = 0xC then some .Random
  else if op = 0xD then some .Draw
  else if op = 0xE then
    if kk = 0x9E then some .SkipIfKey
    else if kk = 0xA1 then some .SkipIfNotKey
    else none
  else if op = 0xF then
    if kk = 7 then some .SetVXToDT
    else if kk = 0x15 then some .SetDTToVX
    else if kk = 0x18 then some .SetSTToVX
    else if kk = 0x1E then some .AddI
    else if kk = 0x0A then some .GetKey
    else if kk = 0x29 then some .FontCharacter
    else if kk = 0x33 then some .BinaryCodedDecimalConversion
    else if kk = 0x55 then some .SaveRegisterToMemory
    else if kk = 0x65 then some .LoadRegisterFromMemory
    else none
  else some .Error

/-- Field extraction and decoding of one 16-bit instruction word, as performed
at the top of `Cpu::execute_instruction` before the dispatch. -/
def decodeOpcode (inst : Nat) : Option Opcode :=
  Opcode.from_raw (inst >>> 12) ((inst &&& 0xF00) >>> 8) ((inst &&& 0xF0) >>> 4)
    (inst &&& 0xF) (inst &&& 0xFF)

namespace Cpu

/-- Method `Cpu::jump` (opcode 1NNN). -/
def jump (c : Cpu) (nnn : Nat) : Cpu :=
  { c with pc := nnn }

/-- Reverse scan of `Cpu::return_sub`: the Rust loop
`for (i, sr) in self.stack.iter().enumerate().rev()` visits indices 15 down
to 0 and, whenever the slot is nonzero, overwrites `pc` and `stop` (there is
no `break`).  The argument `k` is the number of slots still to visit, so slot
`k - 1` is visited next; the pair carried is `(pc, stop)`. -/
def revScanAux (s : Nat → Nat) : Nat → Nat × Nat → Nat × Nat
  | 0, st => st
  | k + 1, st => revScanAux s k (if s k ≠ 0 then (s k, k) else st)

/-- Method `Cpu::return_sub` (opcode 00EE): scan the stack from the top down
without breaking, so the scan ends on the lowest-indexed nonzero slot; set
`pc` from it and zero it.  On an all-zero stack `pc` is untouched and slot 0
is (re)zeroed. -/
def return_sub (c : Cpu) : Cpu :=
  let st := revScanAux c.stack 16 (c.pc, 0)
  { c with pc := st.1, stack := updf c.stack st.2 0 }

/-- Forward scan of `Cpu::goto_sub`: find the first index `i < 16` with
`stack[i] == 0` (the loop breaks there); if none exists, `stop` keeps its
initial value 0.  The argument `k` counts the slots still to visit starting
at index `i`. -/
def firstZeroAux (s : Nat → Nat) : Nat → Nat → Nat
  | 0, _ => 0
  | k + 1, i => if s i = 0 then i else firstZeroAux s k (i + 1)

/-- Method `Cpu::goto_sub` (opcode 2NNN): store the current `pc` into the
first zero stack slot (slot 0 if the stack is full) and jump to `nnn`. -/
def goto_sub (c : Cpu) (nnn : Nat) : Cpu :=
  let stop := firstZeroAux c.stack 16 0
  { c with stack := updf c.stack stop c.pc, pc := nnn }

/-- Method `Cpu::skip_equal` (opcode 3XNN). -/
def skip_equal (c : Cpu) (x nn : Nat) : Cpu :=
  if c.reg x = nn % 256 then { c with pc := (c.pc + 2) % 65536 } else c

/-- Method `Cpu::skip_not_equal` (opcode 4XNN). -/
def skip_not_equal (c : Cpu) (x nn : Nat) : Cpu :=
  if c.reg x ≠ nn % 256 then { c with pc := (c.pc + 2) % 65536 } else c

/-- Method `Cpu::skip_vx_equal_vy` (opcode 5XY0). -/
def skip_vx_equal_vy (c : Cpu) (x y : Nat) : Cpu :=
  if c.reg x = c.reg y then { c with pc := (c.pc + 2) % 65536 } else c

/-- Method `Cpu::skip_vx_not_equal_vy` (opcode 9XY0). -/
def skip_vx_not_equal_vy (c : Cpu) (x y : Nat) : Cpu :=
  if c.reg x ≠ c.reg y then { c with pc := (c.pc + 2) % 65536 } else c

/-- Method `Cpu::skip_if_key` (opcode EX9E); `key` is the polled-and-mapped
keypress oracle (`none` when no mapped key event is available). -/
def skip_if_key (c : Cpu) (x : Nat) (key : Option Nat) : Cpu :=
  match key with
  | some k => if k = c.reg x then { c with pc := (c.pc + 2) % 65536 } else c
  | none => c

/-- Method `Cpu::skip_if_not_key` (opcode EXA1): skips when the polled key
differs from `Vx` or when no key is available. -/
def skip_if_not_key (c : Cpu) (x : Nat) (key : Option Nat) : Cpu :=
  match key with
  | some k => if k ≠ c.reg x then { c with pc := (c.pc + 2) % 65536 } else c
  | none => { c with pc := (c.pc + 2) % 65536 }

/-- Method `Cpu::get_key` (opcode FX0A): store the polled key into `Vx`, or
rewind `pc` by 2 to retry when none is available. -/
def get_key (c : Cpu) (x : Nat) (key : Option Nat) : Cpu :=
  match key with
  | some k => { c with reg := updf c.reg x k }
  | none => { c with pc := c.pc - 2 }

/-- Method `Cpu::set_vx` (opcode 6XNN); `nn as u8` is the `% 256` cast. -/
def set_vx (c : Cpu) (x nn : Nat) : Cpu :=
  { c with reg := updf c.reg x (nn % 256) }

/-- Method `Cpu::add_vx` (opcode 7XNN): wrapping add without carry flag. -/
def add_vx (c : Cpu) (x nn : Nat) : Cpu :=
  { c with reg := updf c.reg x ((c.reg x + nn) % 256) }

/-- Method `Cpu::set_i` (opcode ANNN). -/
def set_i (c : Cpu) (nnn : Nat) : Cpu :=
  { c with index := nnn }

/-- Method `Cpu::add_i` (opcode FX1E): `index += Vx` in `u16` arithmetic,
then set `VF = 1` when the new index is at least 0x1000; `VF` is left alone
otherwise. -/
def add_i (c : Cpu) (x : Nat) : Cpu :=
  let idx := (c.index + c.reg x) % 65536
  let c1 := { c with index := idx }
  if 0x1000 ≤ idx then { c1 with reg := updf c1.reg 0xF 1 } else c1

/-- Method `Cpu::jump_with_offset` (opcode BNNN). -/
def jump_with_offset (c : Cpu) (nnn : Nat) : Cpu :=
  { c with pc := (nnn + c.reg 0) % 65536 }

/-- Method `Cpu::random` (opcode CXNN); `rnd` is the random-byte oracle for
`rand::random::<u8>()`. -/
def random (c : Cpu) (x nn rnd : Nat) : Cpu :=
  { c with reg := updf c.reg x ((rnd % 256) &&& (nn % 256)) }

/-- Method `Cpu::font_character` (opcode FX29). -/
def font_character (c : Cpu) (x : Nat) : Cpu :=
  { c with index := (c.reg x * 5 + 0x50) % 65536 }

/-- Bit `k` (0 = most significant, Msb0 order) of a sprite byte, as produced
by `sprite_data.view_bits::<Msb0>()` in `Cpu::draw`. -/
def spriteBit (byte k : Nat) : Bool :=
  byte / 2 ^ (7 - k) % 2 = 1

/-- Inner bit loop of `Cpu::draw` over one sprite byte: `bits` is the list of
remaining Msb0 bits, `xc`/`yc` the current column and row.  A set bit on a
lit pixel clears it and sets the carried flag to 1; a set bit on a dark pixel
lights it and resets the flag to 0; the display read happens only when the
bit is set (Rust `&&` short-circuits) and panics (`none`) when the
coordinates fall outside the 64×32 array.  The column loop breaks after
processing column 63. -/
def blitBits : List Bool → Nat → Nat → (Nat → Nat → Nat) → Nat →
    Option ((Nat → Nat → Nat) × Nat)
  | [], _, _, d, vf => some (d, vf)
  | b :: rest, xc, yc, d, vf =>
    let step : Option ((Nat → Nat → Nat) × Nat) :=
      if b then
        if 64 ≤ xc ∨ 32 ≤ yc then none
        else if d xc yc = 1 then some (upd2 d xc yc 0, 1)
        else if d xc yc = 0 then some (upd2 d xc yc 1, 0)
        else some (d, vf)
      else some (d, vf)
    match step with
    | none => none
    | some (d', vf') =>
      if xc = 63 then some (d', vf')
      else blitBits rest (xc + 1) yc d' vf'

/-- Row loop of `Cpu::draw`: `rows` sprite rows remain, the next sprite byte
sits at memory address `addr` (a read at or beyond 4096 panics), each row is
blitted starting at column `x0`, and the row counter `yc` advances by one per
row with the loop breaking once it reaches exactly 31. -/
def drawRows (mem : Nat → Nat) (x0 : Nat) :
    Nat → Nat → Nat → (Nat → Nat → Nat) → Nat → Option ((Nat → Nat → Nat) × Nat)
  | 0, _, _, d, vf => some (d, vf)
  | rows + 1, addr, yc, d, vf =>
    if 4096 ≤ addr then none
    else
      let sprite := mem addr
      match blitBits (List.map (spriteBit sprite) (List.range 8)) x0 yc d vf with
      | none => none
      | some (d', vf') =>
        if yc + 1 = 31 then some (d', vf')
        else drawRows mem x0 rows (addr + 1) (yc + 1) d' vf'

/-- Method `Cpu::draw` (opcode DXYN): XOR-blit `n` sprite rows fetched from
`mem[index..]` at start column `Vx % 64` and start row `Vy % 32`, with
`VF` pre-cleared to 0 and thereafter tracking the bit loop's flag writes. -/
def draw (c : Cpu) (x y n : Nat) : Option Cpu :=
  let x0 := c.reg x % 64
  let y0 := c.reg y % 32
  match drawRows c.mem x0 n c.index y0 c.disp 0 with
  | none => none
  | some (d, vf) => some { c with disp := d, reg := updf c.reg 0xF vf }

/-- Method `Cpu::set_vx_to_vy` (opcode 8XY0). -/
def set_vx_to_vy (c : Cpu) (x y : Nat) : Cpu :=
  { c with reg := updf c.reg x (c.reg y) }

/-- Method `Cpu::binary_or` (opcode 8XY1). -/
def binary_or (c : Cpu) (x y : Nat) : Cpu :=
  { c with reg := updf c.reg x (c.reg x ||| c.reg y) }

/-- Method `Cpu::binary_and` (opcode 8XY2). -/
def binary_and (c : Cpu) (x y : Nat) : Cpu :=
  { c with reg := updf c.reg x (c.reg x &&& c.reg y) }

/-- Method `Cpu::binary_xor` (opcode 8XY3). -/
def binary_xor (c : Cpu) (x y : Nat) : Cpu :=
  { c with reg := updf c.reg x (c.reg x ^^^ c.reg y) }

/-- Method `Cpu::add_vy_to_vx` (opcode 8XY4): 16-bit sum, carry into `VF`,
then the (possibly wrapped) sum is stored into `Vx` after the flag write. -/
def add_vy_to_vx (c : Cpu) (x y : Nat) : Cpu :=
  let temp := c.reg x + c.reg y
  if 255 < temp then
    let c1 := { c with reg := updf c.reg 0xF 1 }
    { c1 with reg := updf c1.reg x (temp % 256) }
  else
    let c1 := { c with reg := updf c.reg 0xF 0 }
    { c1 with reg := updf c1.reg x temp }

/-- Method `Cpu::sub_vy_from_vx`: computes `Vx - Vy` into `Vx` with
`VF = 1` exactly when no borrow occurs; the flag is written before the
result.  The wrapped branch mirrors `(256 - (subtrahend - minuend) as u16)
as u8`. -/
def sub_vy_from_vx (c : Cpu) (x y : Nat) : Cpu :=
  let minuend := c.reg x
  let subtrahend := c.reg y
  if minuend < subtrahend then
    let c1 := { c with reg := updf c.reg 0xF 0 }
    { c1 with reg := updf c1.reg x ((256 - (subtrahend - minuend)) % 256) }
  else
    let c1 := { c with reg := updf c.reg 0xF 1 }
    { c1 with reg := updf c1.reg x (minuend - subtrahend) }

/-- Method `Cpu::sub_vx_from_vy`: computes `Vy - Vx` into `Vx` with
`VF = 1` exactly when `Vy ≥ Vx`; the flag is written before the result. -/
def sub_vx_from_vy (c : Cpu) (x y : Nat) : Cpu :=
  let minuend := c.reg y
  let subtrahend := c.reg x
  if minuend < subtrahend then
    let c1 := { c with reg := updf c.reg 0xF 0 }
    { c1 with reg := updf c1.reg x ((256 - (subtrahend - minuend)) % 256) }
  else
    let c1 := { c with reg := updf c.reg 0xF 1 }
    { c1 with reg := updf c1.reg x (minuend - subtrahend) }

/-- Method `Cpu::shift_right` (opcode 8XY6): the shifted-out low bit is
saved first and written into `VF` after the shifted value is stored. -/
def shift_right (c : Cpu) (x _y : Nat) : Cpu :=
  let flag := c.reg x &&& 1
  let c1 := { c with reg := updf c.reg x (c.reg x / 2) }
  { c1 with reg := updf c1.reg 0xF flag }

/-- Method `Cpu::shift_left` (opcode 8XYE): the shifted-out high bit is
saved first and written into `VF` after the shifted value is stored; the
`u8` left shift wraps modulo 256. -/
def shift_left (c : Cpu) (x _y : Nat) : Cpu :=
  let flag := (c.reg x &&& 128) >>> 7
  let c1 := { c with reg := updf c.reg x (c.reg x * 2 % 256) }
  { c1 with reg := updf c1.reg 0xF flag }

/-- Guarded memory write: `mem[a] = v` panics (`none`) when `a ≥ 4096`. -/
def writeMem (m : Nat → Nat) (a v : Nat) : Option (Nat → Nat) :=
  if a < 4096 then some (updf m a v) else none

/-- Guarded memory read: `mem[a]` panics (`none`) when `a ≥ 4096`. -/
def readMem (m : Nat → Nat) (a : Nat) : Option Nat :=
  if a < 4096 then some (m a) else none

/-- Method `Cpu::binary_coded_decimal_conversion` (opcode FX33): stores
`Vx / 100`, `Vx / 10` and `Vx % 10` at `mem[I]`, `mem[I+1]`, `mem[I+2]`
(note the source stores `Vx / 10`, not `(Vx / 10) % 10`). -/
def binary_coded_decimal_conversion (c : Cpu) (x : Nat) : Option Cpu :=
  let n := c.reg x
  let hundreds := n / 100
  let tens := n / 10
  let ones := n % 10
  match writeMem c.mem c.index hundreds with
  | none => none
  | some m1 =>
    match writeMem m1 (c.index + 1) tens with
    | none => none
    | some m2 =>
      match writeMem m2 (c.index + 2) ones with
      | none => none
      | some m3 => some { c with mem := m3 }

/-- Method `Cpu::set_vx_to_dt` (opcode FX07). -/
def set_vx_to_dt (c : Cpu) (x : Nat) : Cpu :=
  { c with reg := updf c.reg x c.dt }

/-- Method `Cpu::set_dt_to_vx` (opcode FX15). -/
def set_dt_to_vx (c : Cpu) (x : Nat) : Cpu :=
  { c with dt := c.reg x }

/-- Method `Cpu::set_st_to_vx` (opcode FX18). -/
def set_st_to_vx (c : Cpu) (x : Nat) : Cpu :=
  { c with st := c.reg x }

/-- Loop of `Cpu::save_register_to_memory`: writes `reg[0..=k]` to
`mem[index..=index+k]` in increasing order of `i`, panicking (`none`) at the
first out-of-bounds address. -/
def saveRegsUpTo (reg : Nat → Nat) (index : Nat) (m : Nat → Nat) :
    Nat → Option (Nat → Nat)
  | 0 => writeMem m index (reg 0)
  | k + 1 =>
    match saveRegsUpTo reg index m k with
    | none => none
    | some m1 => writeMem m1 (index + (k + 1)) (reg (k + 1))

/-- Method `Cpu::save_register_to_memory` (opcode FX55). -/
def save_register_to_memory (c : Cpu) (x : Nat) : Option Cpu :=
  match saveRegsUpTo c.reg c.index c.mem x with
  | none => none
  | some m1 => some { c with mem := m1 }

/-- Loop of `Cpu::load_register_from_memory`: reads
`mem[index..=index+k]` into `reg[0..=k]` in increasing order of `i`,
panicking (`none`) at the first out-of-bounds address. -/
def loadRegsUpTo (m : Nat → Nat) (index : Nat) (reg : Nat → Nat) :
    Nat → Option (Nat → Nat)
  | 0 => (readMem m index).map (fun v => updf reg 0 v)
  | k + 1 =>
    match loadRegsUpTo m index reg k with
    | none => none
    | some r1 => (readMem m (index + (k + 1))).map (fun v => updf r1 (k + 1) v)

/-- Method `Cpu::load_register_from_memory` (opcode FX65). -/
def load_register_from_memory (c : Cpu) (x : Nat) : Option Cpu :=
  match loadRegsUpTo c.mem c.index c.reg x with
  | none => none
  | some r1 => some { c with reg := r1 }

/-- Method `Cpu::execute_instruction`: extract the nibble fields, decode, and
dispatch.  A decode panic (`unreachable!()`) and the `Opcode::Error` arm's
`panic!()` are both `none`; every other arm yields the mutated state and the
arm's `Chip8Message` (only `Clear` and `Draw` signal the host). -/
def execute_instruction (rnd : Nat) (key : Option Nat) (c : Cpu) (inst : Nat) :
    Option (Cpu × Chip8Message) :=
  let nnn := inst &&& 0xFFF
  let n := inst &&& 0xF
  let x := (inst &&& 0xF00) >>> 8
  let y := (inst &&& 0xF0) >>> 4
  let kk := inst &&& 0xFF
  match decodeOpcode inst with
  | Option.none => none
  | some oc =>
    match oc with
    | .None => some (c, .None)
    | .Error => none
    | .Clear => some (c, .ClearScreen)
    | .Jump => some (c.jump nnn, .None)
    | .ReturnSub => some (c.return_sub, .None)
    | .GotoSub => some (c.goto_sub nnn, .None)
    | .SkipEqual => some (c.skip_equal x kk, .None)
    | .SkipNotEqual => some (c.skip_not_equal x kk, .None)
    | .SkipVXEqualVY => some (c.skip_vx_equal_vy x y, .None)
    | .SkipVXNotEqualVY => some (c.skip_vx_not_equal_vy x y, .None)
    | .SkipIfKey => some (c.skip_if_key x key, .None)
    | .SkipIfNotKey => some (c.skip_if_not_key x key, .None)
    | .GetKey => some (c.get_key x key, .None)
    | .SetVX => some (c.set_vx x kk, .None)
    | .AddVX => some (c.add_vx x kk, .None)
    | .SetI => some (c.set_i nnn, .None)
    | .AddI => some (c.add_i x, .None)
    | .JumpWithOffset => some (c.jump_with_offset nnn, .None)
    | .Random => some (c.random x kk rnd, .None)
    | .FontCharacter => some (c.font_character x, .None)
    | .Draw =>
      match c.draw x y n with
      | none => none
      | some c1 => some (c1, .DrawScreen)
    | .SetVXToVY => some (c.set_vx_to_vy x y, .None)
    | .BinaryOr => some (c.binary_or x y, .None)
    | .BinaryAnd => some (c.binary_and x y, .None)
    | .BinaryXor => some (c.binary_xor x y, .None)
    | .AddVYToVX => some (c.add_vy_to_vx x y, .None)
    | .SubVYFromVX => some (c.sub_vy_from_vx x y, .None)
    | .SubVXFromVY => some (c.sub_vx_from_vy x y, .None)
    | .ShiftRight => some (c.shift_right x y, .None)
    | .ShiftLeft => some (c.shift_left x y, .None)
    | .BinaryCodedDecimalConversion =>
      match c.binary_coded_decimal_conversion x with
      | none => none
      | some c1 => some (c1, .None)
    | .SetVXToDT => some (c.set_vx_to_dt x, .None)
    | .SetDTToVX => some (c.set_dt_to_vx x, .None)
    | .SetSTToVX => some (c.set_st_to_vx x, .None)
    | .SaveRegisterToMemory =>
      match c.save_register_to_memory x with
      | none => none
      | some c1 => some (c1, .None)
    | .LoadRegisterFromMemory =>
      match c.load_register_from_memory x with
      | none => none
      | some c1 => some (c1, .None)

end Cpu

/-- Freshly constructed CPU state of `Cpu::new`: everything zeroed and the
program counter at `START = 0x200`. -/
def Cpu.new : Cpu where
  mem := fun _ => 0
  disp := fun _ _ => 0
  index := 0
  stack := fun _ => 0
  dt := 0
  st := 0
  reg := fun _ => 0
  pc := 0x200

/-! Concrete CPU states used as inputs of the counterexample and evidence
theorems below.  Each is `Cpu.new` with a few cells overridden. -/

/-- State with `V0 = 0x02`, `V1 = 0x04`, the boundary input named by the
spec for the 8XY5 subtraction. -/
def cpuSubBoundary : Cpu :=
  { Cpu.new with reg := updf (updf Cpu.new.reg 0 2) 1 4 }

/-- State with the pixel at column 0, row 0 lit and the two-pixel sprite
byte `0xC0` stored at memory address 0 (`index = 0`). -/
def cpuDrawCollision : Cpu :=
  { Cpu.new with disp := upd2 Cpu.new.disp 0 0 1, mem := updf Cpu.new.mem 0 0xC0 }

/-- State with a single lit pixel at column 0, row 0. -/
def cpuLitPixel : Cpu :=
  { Cpu.new with disp := upd2 Cpu.new.disp 0 0 1 }

/-- State with `V0 = 234` for the BCD conversion boundary input. -/
def cpuBcd234 : Cpu :=
  { Cpu.new with reg := updf Cpu.new.reg 0 234 }

/-- State whose 16 stack slots are all occupied (nonzero return addresses
`0x300 + 2i`) with `pc = 0x400`: a call stack at full depth 16. -/
def cpuFullStack : Cpu :=
  { Cpu.new with stack := fun i => if i < 16 then 768 + 2 * i else 0, pc := 1024 }

/-- State with one active call frame (`stack[0] = 0x300`) and `pc = 0x400`,
about to perform a nested subroutine call. -/
def cpuOneFrame : Cpu :=
  { Cpu.new with stack := updf Cpu.new.stack 0 768, pc := 1024 }

/-- State whose index register is 4095, so `I + 1` and `I + 2` fall outside
the 4096-byte memory. -/
def cpuIndex4095 : Cpu :=
  { Cpu.new with index := 4095 }

/-- State whose index register is 4096, already outside the memory bound. -/
def cpuIndex4096 : Cpu :=
  { Cpu.new with index := 4096 }

/-- State with `index = 4000 < 0x1000` and `V3 = 200`, so `AddI(3)` lands at
4200 ≥ 0x1000; `VF` starts at 7 to make flag overwrites visible. -/
def cpuAddIOverflow : Cpu :=
  { Cpu.new with index := 4000, reg := updf (updf Cpu.new.reg 3 200) 15 7 }

/-- State with `VF = 200` and `V1 = 100`, an overflowing register sum whose
destination register is `VF` itself. -/
def cpuVFDest : Cpu :=
  { Cpu.new with reg := updf (updf Cpu.new.reg 15 200) 1 100 }

/-- State with `V0 = 200 < 256` and `V1 = 100`, a generic operand pair for
the flag-register theorems. -/
def cpuFlagOperands : Cpu :=
  { Cpu.new with reg := updf (updf Cpu.new.reg 0 200) 1 100 }

/-- Predicate on the decoder's selector fields describing exactly the
sub-case misses whose Rust arm is `_ => unreachable!()`: family 8 with a low
nibble outside {0,…,7,0xE}, family 0xE with `kk` outside {0x9E, 0xA1}, and
family 0xF with `kk` outside the nine handled values. -/
def panicFields (op n kk : Nat) : Prop :=
  (op = 8 ∧ ¬(n = 0 ∨ n = 1 ∨ n = 2 ∨ n = 3 ∨ n = 4 ∨ n = 5 ∨ n = 6 ∨ n = 7 ∨ n = 0xE)) ∨
  (op = 0xE ∧ ¬(kk = 0x9E ∨ kk = 0xA1)) ∨
  (op = 0xF ∧ ¬(kk = 7 ∨ kk = 0x15 ∨ kk = 0x18 ∨ kk = 0x1E ∨ kk = 0x0A ∨
    kk = 0x29 ∨ kk = 0x33 ∨ kk = 0x55 ∨ kk = 0x65))

instance (op n kk : Nat) : Decidable (panicFields op n kk) := by
  unfold panicFields; infer_instance

/-- Instruction words on which decoding panics, phrased through the same
field extraction `Cpu::execute_instruction` performs. -/
def decodePanicCase (inst : Nat) : Prop :=
  panicFields (inst >>> 12) (inst &&& 0xF) (inst &&& 0xFF)

instance (inst : Nat) : Decidable (decodePanicCase inst) := by
  unfold decodePanicCase; infer_instance

/-- Folding a list of call targets through `goto_sub`: the nested-call
chain used to exercise stack capacity. -/
def callChain (c : Cpu) (targets : List Nat) : Cpu :=
  List.foldl (fun a t => Cpu.goto_sub a t) c targets

/-! Helper lemmas shared by the claim theorems. -/

/-- A forward scan over slots that are all nonzero falls off the end and
returns the default stop index 0. -/
theorem firstZeroAux_of_all_nonzero (s : Nat → Nat) :
    ∀ k i, (∀ j, j < k → s (i + j) ≠ 0) → Cpu.firstZeroAux s k i = 0 := by
  intro k
  induction k with
  | zero => intro i _; rfl
  | succ m ih =>
    intro i h
    have h0 : s i ≠ 0 := by simpa using h 0 (Nat.succ_pos m)
    have hrest : ∀ j, j < m → s (i + 1 + j) ≠ 0 := by
      intro j hj
      have := h (j + 1) (by omega)
      simpa [Nat.add_assoc, Nat.add_comm 1 j] using this
    simp [Cpu.firstZeroAux, h0, ih (i + 1) hrest]

/-- A reverse scan over slots that are all zero never overwrites the carried
pair. -/
theorem revScanAux_of_all_zero (s : Nat → Nat) :
    ∀ k st, (∀ i, i < k → s i = 0) → Cpu.revScanAux s k st = st := by
  intro k
  induction k with
  | zero => intro st _; rfl
  | succ m ih =>
    intro st h
    have hm : s m = 0 := h m (Nat.lt_succ_self m)
    have hrest : ∀ i, i < m → s i = 0 := fun i hi => h i (by omega)
    simp [Cpu.revScanAux, hm, ih st hrest]

/-- The register-save loop succeeds exactly when its last written address
`index + k` is still inside the 4096-byte memory. -/
theorem saveRegsUpTo_isSome (r : Nat → Nat) (i : Nat) (m : Nat → Nat) :
    ∀ k, (Cpu.saveRegsUpTo r i m k).isSome ↔ i + k < 4096 := by
  intro k
  induction k with
  | zero =>
    simp only [Cpu.saveRegsUpTo, Cpu.writeMem]
    split <;> simp <;> omega
  | succ n ih =>
    simp only [Cpu.saveRegsUpTo]
    cases hr : Cpu.saveRegsUpTo r i m n with
    | none =>
      rw [hr] at ih
      simp only [hr]
      simp only [Option.isSome_none, Bool.false_eq_true, false_iff] at ih ⊢
      omega
    | some m1 =>
      rw [hr] at ih
      simp only [hr, Cpu.writeMem]
      split <;> simp <;> omega

/-- The register-load loop succeeds exactly when its last read address
`index + k` is still inside the 4096-byte memory. -/
theorem loadRegsUpTo_isSome (m : Nat → Nat) (i : Nat) (r : Nat → Nat) :
    ∀ k, (Cpu.loadRegsUpTo m i r k).isSome ↔ i + k < 4096 := by
  intro k
  induction k with
  | zero =>
    simp only [Cpu.loadRegsUpTo, Cpu.readMem]
    split <;> simp <;> omega
  | succ n ih =>
    simp only [Cpu.loadRegsUpTo]
    cases hr : Cpu.loadRegsUpTo m i r n with
    | none =>
      rw [hr] at ih
      simp only [hr]
      simp only [Option.isSome_none, Bool.false_eq_true, false_iff] at ih ⊢
      omega
    | some r1 =>
      rw [hr] at ih
      simp only [hr, Cpu.readMem]
      split <;> simp <;> omega

set_option maxRecDepth 4000 in
/-- Masking a byte value with 128 and shifting right by 7 extracts its high
bit, which for values below 256 is integer division by 128. -/
theorem land128_shift7_eq_div (v : Nat) (h : v < 256) :
    (v &&& 128) >>> 7 = v / 128 := by
  revert h
  revert v
  decide

set_option maxHeartbeats 2000000 in
/-- Characterization of the decoder on the five selector fields: it panics
(`none`) exactly on `panicFields`, and no field combination with a top
nibble below 16 produces the `Error` sentinel. -/
theorem from_raw_characterization (op x y n kk : Nat) (hop : op < 16) :
    (Opcode.from_raw op x y n kk = Option.none ↔ panicFields op n kk) ∧
    Opcode.from_raw op x y n kk ≠ some Opcode.Error := by
  interval_cases op <;>
    simp only [Opcode.from_raw, panicFields] <;>
    first
      | (norm_num; split_ifs <;> simp_all)
      | simp_all

/-! Claim theorems. -/

/-- C1 (code_bug evidence): the decoder maps the instruction family 8 with
low nibble 5 to `SubVXFromVY`, not `SubVYFromVX`; consequently the
instruction `0x8015` executed on `V0 = 0x02`, `V1 = 0x04` computes
`Vy - Vx`, leaving `V0 = 0x02` and `VF = 1`, instead of the claimed
`V0 = 0xFE` and `VF = 0`.  The second conjunct also re-traces the
repository's own unit test `test_sub_vy_from_vx` first case (`V0 = 4`,
`V1 = 2` expecting `V0 = 2`, `VF = 1`): the code instead yields `V0 = 254`,
`VF = 0`, so the test fails. -/
theorem c1_family8_n5_executes_vy_minus_vx :
    decodeOpcode 0x8015 = some Opcode.SubVXFromVY ∧
    (Cpu.execute_instruction 0 Option.none cpuSubBoundary 0x8015).map
      (fun p => (p.1.reg 0, p.1.reg 15, p.2)) = some (0x02, 1, Chip8Message.None) ∧
    (Cpu.execute_instruction 0 Option.none
        { Cpu.new with reg := updf (updf Cpu.new.reg 0 4) 1 2 } 0x8015).map
      (fun p => (p.1.reg 0, p.1.reg 15)) = some (254, 0) := by
  refine ⟨by decide, by decide, by decide⟩

/-- C2 (code_bug evidence): in `cpuDrawCollision` the pixel at (0,0) is lit
and the sprite byte `0xC0` has its first (Msb0) bit set, so executing
`Draw(0,0,1)` blits a set bit onto an already-lit pixel — a collision, which
clears that pixel.  Yet the final `VF` is 0, because the second sprite bit
lands on a dark pixel and the handler resets `VF` to 0 after the collision;
the claim requires `VF = 1` whenever any collision occurred during the
draw. -/
theorem c2_draw_collision_flag_overwritten :
    cpuDrawCollision.disp 0 0 = 1 ∧
    Cpu.spriteBit (cpuDrawCollision.mem 0) 0 = true ∧
    (Cpu.execute_instruction 0 Option.none cpuDrawCollision 0xD001).map
      (fun p => (p.1.reg 15, p.1.disp 0 0, p.1.disp 1 0, p.2)) =
      some (0, 0, 1, Chip8Message.DrawScreen) := by
  refine ⟨by decide, by decide, by decide⟩

/-- C3 counterexample: executing the Clear opcode `0x00E0` on a state with a
lit pixel returns the `ClearScreen` signal but leaves that framebuffer pixel
lit, contradicting the claim that Clear sets every framebuffer pixel to
zero. -/
theorem c3_clear_leaves_framebuffer_pixel_lit :
    (Cpu.execute_instruction 0 Option.none cpuLitPixel 0x00E0).map
      (fun p => (p.1.disp 0 0, p.2)) = some (1, Chip8Message.ClearScreen) := by
  decide

/-- C3 amended: executing the Clear opcode `0x00E0` returns the
`ClearScreen` signal and leaves the whole CPU state — in particular the
framebuffer — unchanged; zeroing the visible screen is delegated to the host
renderer that consumes the signal. -/
theorem c3_clear_signals_host_state_unchanged (rnd : Nat) (key : Option Nat) (c : Cpu) :
    Cpu.execute_instruction rnd key c 0x00E0 = some (c, Chip8Message.ClearScreen) := rfl

/-- C4 (code_bug evidence): executing `BCDConvert` (`0xF033`) with
`V0 = 234` and `I = 0` stores 2, 23, 4 at `memory[I]`, `memory[I+1]`,
`memory[I+2]`: the middle byte is `Vx / 10 = 23`, not the claimed tens digit
`(Vx / 10) % 10 = 3`. -/
theorem c4_bcd_middle_byte_not_tens_digit :
    (Cpu.execute_instruction 0 Option.none cpuBcd234 0xF033).map
      (fun p => (p.1.mem 0, p.1.mem 1, p.1.mem 2)) = some (2, 23, 4) := by
  decide

/-- C5 counterexample: `cpuFullStack` has all 16 stack slots occupied, yet
executing `GotoSub` (`0x2500`) completes normally with the ordinary `None`
message — no StackOverflow is reported — silently overwriting slot 0 (old
value `0x300`) with the current `pc`; likewise executing `ReturnSub`
(`0x00EE`) on the empty stack of `Cpu.new` completes normally with the
`None` message instead of a StackUnderflow. -/
theorem c5_stack_limits_not_reported :
    (∀ i, i < 16 → cpuFullStack.stack i ≠ 0) ∧
    (Cpu.execute_instruction 0 Option.none cpuFullStack 0x2500).map
      (fun p => (p.1.stack 0, p.1.pc, p.2)) = some (0x400, 0x500, Chip8Message.None) ∧
    (Cpu.execute_instruction 0 Option.none Cpu.new 0x00EE).map
      (fun p => (p.1.pc, p.2)) = some (0x200, Chip8Message.None) := by
  refine ⟨by decide, by decide, by decide⟩

/-- C5 amended: no error values exist for the stack limits.  A `GotoSub` on
a full stack silently overwrites slot 0 with the current `pc` and jumps; a
`ReturnSub` on an empty stack leaves `pc` and every stack slot unchanged;
and a chain of 16 nested calls starting from the fresh state does fill all
16 slots with nonzero return addresses. -/
theorem c5_stack_boundaries_silent (c : Cpu) (nnn : Nat) :
    ((∀ i, i < 16 → c.stack i ≠ 0) →
      (c.goto_sub nnn).pc = nnn ∧ (c.goto_sub nnn).stack 0 = c.pc) ∧
    ((∀ i, i < 16 → c.stack i = 0) →
      c.return_sub.pc = c.pc ∧ ∀ j, c.return_sub.stack j = c.stack j) ∧
    (∀ i, i < 16 → (callChain Cpu.new (List.replicate 16 0x300)).stack i ≠ 0) := by
  refine ⟨?_, ?_, by decide⟩
  · intro h
    have h0 : Cpu.firstZeroAux c.stack 16 0 = 0 :=
      firstZeroAux_of_all_nonzero c.stack 16 0 (fun j hj => by simpa using h j hj)
    constructor
    · simp [Cpu.goto_sub]
    · simp [Cpu.goto_sub, h0, updf]
  · intro h
    have hscan : Cpu.revScanAux c.stack 16 (c.pc, 0) = (c.pc, 0) :=
      revScanAux_of_all_zero c.stack 16 (c.pc, 0) h
    constructor
    · simp [Cpu.return_sub, hscan]
    · intro j
      simp only [Cpu.return_sub, hscan, updf]
      split
      · next hj => rw [hj]; exact (h 0 (by omega)).symm
      · rfl

/-- C5 witness: the amended theorem applied to the concrete full stack and
to the concrete empty stack. -/
theorem c5_stack_boundaries_silent_witness :
    ((cpuFullStack.goto_sub 0x500).pc = 0x500 ∧
      (cpuFullStack.goto_sub 0x500).stack 0 = cpuFullStack.pc) ∧
    (Cpu.new.return_sub.pc = Cpu.new.pc ∧
      ∀ j, Cpu.new.return_sub.stack j = Cpu.new.stack j) :=
  ⟨(c5_stack_boundaries_silent cpuFullStack 0x500).1 (by decide),
    (c5_stack_boundaries_silent Cpu.new 0x500).2.1 (by decide)⟩

/-- C6 (code_bug evidence): from `cpuOneFrame` (one active frame
`stack[0] = 0x300`, `pc = 0x400`), `GotoSub(0x500)` pushes `0x400` into
slot 1 and jumps; but the matching `ReturnSub` sets `pc` to `0x300` — the
bottom, oldest frame — and zeroes slot 0, leaving the just-pushed `0x400`
in slot 1.  The claim requires `pc` to be restored to `0x400` (LIFO). -/
theorem c6_return_pops_bottom_frame :
    (cpuOneFrame.goto_sub 0x500).stack 1 = 0x400 ∧
    (cpuOneFrame.goto_sub 0x500).pc = 0x500 ∧
    ((cpuOneFrame.goto_sub 0x500).return_sub).pc = 0x300 ∧
    ((cpuOneFrame.goto_sub 0x500).return_sub).stack 0 = 0 ∧
    ((cpuOneFrame.goto_sub 0x500).return_sub).stack 1 = 0x400 := by
  refine ⟨by decide, by decide, by decide, by decide, by decide⟩

/-- C7 counterexample: on the word `0x8008` (family 8, low nibble 8) the
decoder hits the `_ => unreachable!()` arm and panics — modelled as `none` —
so it yields neither a named variant nor the `None` or `Error` sentinel,
refuting the claim that decoding is total and never aborts. -/
theorem c7_decode_aborts_on_family8_n8 :
    decodeOpcode 0x8008 = Option.none := by decide

/-- C7 amended: for every 16-bit word the decoder either returns a named
variant or the `None` sentinel, or panics via `unreachable!()`; it panics
exactly on the sub-case misses of families 8, 0xE and 0xF described by
`decodePanicCase`, and the `Error` sentinel is never produced (the top
nibble of a 16-bit word always matches one of the sixteen families, so the
claimed surfacing of a decode failure to the host is dead code — and the
`Opcode::Error` arm of `execute_instruction` would `panic!()` anyway). -/
theorem c7_decode_panics_exactly_on_subcase_misses (inst : Nat) (h : inst < 65536) :
    (decodeOpcode inst = Option.none ↔ decodePanicCase inst) ∧
    decodeOpcode inst ≠ some Opcode.Error := by
  have hop : inst >>> 12 < 16 := by
    rw [Nat.shiftRight_eq_div_pow]
    omega
  simpa [decodeOpcode, decodePanicCase] using
    from_raw_characterization (inst >>> 12) ((inst &&& 0xF00) >>> 8)
      ((inst &&& 0xF0) >>> 4) (inst &&& 0xF) (inst &&& 0xFF) hop

/-- C7 witness: the amended theorem applied at the concrete word `0xF165`
(family F, `kk = 0x65`, a decodable word). -/
theorem c7_decode_panics_exactly_on_subcase_misses_witness :
    (0xF165 : Nat) < 65536 ∧
    ((decodeOpcode 0xF165 = Option.none ↔ decodePanicCase 0xF165) ∧
      decodeOpcode 0xF165 ≠ some Opcode.Error) :=
  ⟨by decide, c7_decode_panics_exactly_on_subcase_misses 0xF165 (by decide)⟩

/-- C8 counterexample: with `I = 4095` the BCD store reaches addresses 4096
and 4097; no bound is checked first and no LoadError value exists — the
access panics (Rust index out of bounds, modelled `none`), aborting the
process, both at the method and at the instruction level. -/
theorem c8_oob_bcd_aborts_without_error_value :
    cpuIndex4095.binary_coded_decimal_conversion 0 = Option.none ∧
    Cpu.execute_instruction 0 Option.none cpuIndex4095 0xF033 = Option.none :=
  ⟨rfl, rfl⟩

/-- C8 amended: execution-time memory accesses are not validated in
advance; each direct array access panics when its address reaches 4096.
BCD conversion completes iff `I + 2 < 4096`, the StoreRegs/LoadRegs
transfers complete iff `I + x < 4096`, and a Draw of at least one sprite
row with `I ≥ 4096` panics on its first sprite fetch. -/
theorem c8_memory_accesses_unchecked (c : Cpu) (x : Nat) :
    ((c.binary_coded_decimal_conversion x).isSome ↔ c.index + 2 < 4096) ∧
    ((c.save_register_to_memory x).isSome ↔ c.index + x < 4096) ∧
    ((c.load_register_from_memory x).isSome ↔ c.index + x < 4096) ∧
    (∀ y n, 4096 ≤ c.index → c.draw x y (n + 1) = Option.none) := by
  refine ⟨?_, ?_, ?_, ?_⟩
  · unfold Cpu.binary_coded_decimal_conversion Cpu.writeMem
    split_ifs <;> simp <;> omega
  · have hs := saveRegsUpTo_isSome c.reg c.index c.mem x
    cases h : Cpu.saveRegsUpTo c.reg c.index c.mem x with
    | none =>
      rw [h] at hs
      simp only [Cpu.save_register_to_memory, h]
      simpa using hs
    | some m1 =>
      rw [h] at hs
      simp only [Cpu.save_register_to_memory, h]
      simpa using hs
  · have hl := loadRegsUpTo_isSome c.mem c.index c.reg x
    cases h : Cpu.loadRegsUpTo c.mem c.index c.reg x with
    | none =>
      rw [h] at hl
      simp only [Cpu.load_register_from_memory, h]
      simpa using hl
    | some r1 =>
      rw [h] at hl
      simp only [Cpu.load_register_from_memory, h]
      simpa using hl
  · intro y n h
    simp [Cpu.draw, Cpu.drawRows, h]

/-- C8 witness: the amended theorem applied at the concrete state with
`I = 4096`, where all three transfers fail and the one-row draw panics. -/
theorem c8_memory_accesses_unchecked_witness :
    ((cpuIndex4096.binary_coded_decimal_conversion 0).isSome ↔
      cpuIndex4096.index + 2 < 4096) ∧
    ((cpuIndex4096.save_register_to_memory 0).isSome ↔
      cpuIndex4096.index + 0 < 4096) ∧
    ((cpuIndex4096.load_register_from_memory 0).isSome ↔
      cpuIndex4096.index + 0 < 4096) ∧
    cpuIndex4096.draw 0 0 1 = Option.none := by
  have h := c8_memory_accesses_unchecked cpuIndex4096 0
  exact ⟨h.1, h.2.1, h.2.2.1, h.2.2.2 0 0 (by decide)⟩

/-- C9 confirmed: `AddI(x)` adds `Vx` into the index register (16-bit
wrapping, per the wrap-by-design rule of the spec), sets `VF = 1` whenever
the new index is at least 0x1000, and touches no register at all — in
particular preserving `VF` — when the new index stays below 0x1000. -/
theorem c9_add_i_overflow_flag (c : Cpu) (x : Nat) :
    ((c.add_i x).index = (c.index + c.reg x) % 65536) ∧
    (0x1000 ≤ (c.add_i x).index → (c.add_i x).reg 15 = 1) ∧
    ((c.add_i x).index < 0x1000 → ∀ j, (c.add_i x).reg j = c.reg j) := by
  refine ⟨?_, ?_, ?_⟩
  · simp only [Cpu.add_i]
    split_ifs <;> rfl
  · simp only [Cpu.add_i]
    split_ifs with h1
    · intro _; simp [updf]
    · intro h2
      exact absurd (show 4096 ≤ (c.index + c.reg x) % 65536 from h2) h1
  · simp only [Cpu.add_i]
    split_ifs with h1
    · intro h2
      exact absurd (show (c.index + c.reg x) % 65536 < 4096 from h2) (by omega)
    · intro _ j; rfl

/-- C9 witness: the theorem applied at `cpuAddIOverflow` (index 4000, V3 =
200, so the new index 4200 overflows and `VF` becomes 1) and at the fresh
state (new index 0, registers untouched). -/
theorem c9_add_i_overflow_flag_witness :
    (cpuAddIOverflow.add_i 3).index = 4200 ∧
    (cpuAddIOverflow.add_i 3).reg 15 = 1 ∧
    (∀ j, (Cpu.new.add_i 3).reg j = Cpu.new.reg j) := by
  refine ⟨?_, ?_, ?_⟩
  · exact (c9_add_i_overflow_flag cpuAddIOverflow 3).1
  · exact (c9_add_i_overflow_flag cpuAddIOverflow 3).2.1 (by decide)
  · exact (c9_add_i_overflow_flag Cpu.new 3).2.2 (by decide)

/-- C10 counterexample: with `VF = 200` and `V1 = 100`, the overflowing
`AddReg` instruction `0x8F14` (destination register `x = 0xF`) leaves
`VF = 44 = 300 mod 256`, the ordinary arithmetic result stored after the
flag write, instead of the documented carry value 1. -/
theorem c10_addreg_result_clobbers_carry_flag :
    cpuVFDest.reg 15 = 200 ∧ cpuVFDest.reg 1 = 100 ∧
    (Cpu.execute_instruction 0 Option.none cpuVFDest 0x8F14).map
      (fun p => p.1.reg 15) = some 44 := by
  refine ⟨by decide, by decide, by decide⟩

/-- C10 amended: the documented flag value survives in `VF` for
`AddReg`/`SubVYFromVX`/`SubVXFromVY` exactly when the destination register
`x` is not `0xF` itself (otherwise the stored result, written after the
flag, overwrites it); `ShiftRight`/`ShiftLeft` write the shifted-out bit
into `VF` after the result, so their flag is correct for every `x`
including `0xF`; and `AddI` sets `VF = 1` on index overflow and preserves
`VF` otherwise.  (`Draw` is excluded: as the C2 counterexample shows, its
final `VF` is the collision status of the last blitted set bit, not the
documented collision flag.) -/
theorem c10_flag_register_discipline (c : Cpu) (x y : Nat) (hx : c.reg x < 256) :
    (x ≠ 15 →
      ((c.add_vy_to_vx x y).reg 15 = if 255 < c.reg x + c.reg y then 1 else 0) ∧
      ((c.sub_vy_from_vx x y).reg 15 = if c.reg x < c.reg y then 0 else 1) ∧
      ((c.sub_vx_from_vy x y).reg 15 = if c.reg y < c.reg x then 0 else 1)) ∧
    ((c.shift_right x y).reg 15 = c.reg x % 2) ∧
    ((c.shift_left x y).reg 15 = c.reg x / 128) ∧
    (0x1000 ≤ (c.add_i x).index → (c.add_i x).reg 15 = 1) ∧
    ((c.add_i x).index < 0x1000 → (c.add_i x).reg 15 = c.reg 15) := by
  refine ⟨?_, ?_, ?_, ?_, ?_⟩
  · intro hx15
    have h15 : (15 : Nat) ≠ x := Ne.symm hx15
    refine ⟨?_, ?_, ?_⟩
    · simp only [Cpu.add_vy_to_vx]
      split_ifs <;> simp [updf, h15]
    · simp only [Cpu.sub_vy_from_vx]
      split_ifs <;> simp [updf, h15]
    · simp only [Cpu.sub_vx_from_vy]
      split_ifs <;> simp [updf, h15]
  · simp only [Cpu.shift_right, updf]
    simp [Nat.and_one_is_mod]
  · simp only [Cpu.shift_left, updf]
    simp [land128_shift7_eq_div (c.reg x) hx]
  · exact (c9_add_i_overflow_flag c x).2.1
  · intro h2
    exact ((c9_add_i_overflow_flag c x).2.2 h2) 15

/-- C10 witness: the amended theorem applied at `cpuFlagOperands`
(`V0 = 200`, `V1 = 100`, destination `x = 0`) and, for the overflow case of
`AddI`, at `cpuAddIOverflow`. -/
theorem c10_flag_register_discipline_witness :
    ((cpuFlagOperands.add_vy_to_vx 0 1).reg 15 = 1 ∧
      (cpuFlagOperands.sub_vy_from_vx 0 1).reg 15 = 1 ∧
      (cpuFlagOperands.sub_vx_from_vy 0 1).reg 15 = 0) ∧
    (cpuFlagOperands.shift_right 0 1).reg 15 = 0 ∧
    (cpuFlagOperands.shift_left 0 1).reg 15 = 1 ∧
    (cpuAddIOverflow.add_i 3).reg 15 = 1 := by
  have h := c10_flag_register_discipline cpuFlagOperands 0 1 (by decide)
  have h2 := c10_flag_register_discipline cpuAddIOverflow 3 3 (by decide)
  refine ⟨⟨?_, ?_, ?_⟩, ?_, ?_, ?_⟩
  · simpa using (h.1 (by decide)).1
  · simpa using (h.1 (by decide)).2.1
  · simpa using (h.1 (by decide)).2.2
  · simpa using h.2.1
  · simpa using h.2.2.1
  · exact h2.2.2.2.1 (by decide)
